import Mathlib

/-!
# Verification of the shopify-auto-import SEO subsystem

A shallow embedding, in Lean 4, of the algorithmic parts of the
`shopify-auto-import` repository (files `src/main.py`,
`src/services/importer.py`, `src/jobs/importer.py`), together with theorems
settling the frozen specification claims about them.

Python strings are modelled as `List Char` (`PyStr`); Python `None` as
`Option`; floats occurring in the keyword scoring (2.0, 1.5, 1.25, 1.1) as
exact rationals `ℚ` (all the constants and their products are small and the
claims are about the formula structure and sign, where float and rational
arithmetic agree); the `since_id` pagination of the Shopify REST API as a pure
function over an ascending catalog of product ids; HTTP writes as an explicit
write log together with a response oracle.
-/

namespace ShopifyAutoImport

/-- Python `str` modelled as a list of characters. -/
abbrev PyStr := List Char

/-- Python `str.lower()` (inputs in this code base are ASCII). -/
def pyLower (s : PyStr) : PyStr := s.map Char.toLower

/-- The ASCII whitespace characters recognised by Python `str.strip()` and
by the regex class `\s`. -/
def isPySpace (c : Char) : Bool :=
  c = ' ' || c = '\t' || c = '\n' || c = '\r' || c = '\x0b' || c = '\x0c'

/-- Python `str.strip()`: drop whitespace from both ends. -/
def pyStrip (s : PyStr) : PyStr :=
  ((s.dropWhile isPySpace).reverse.dropWhile isPySpace).reverse

/-- Python `str.rstrip(chars)`: drop the characters of `cs` from the right end. -/
def pyRstrip (s : PyStr) (cs : List Char) : PyStr :=
  (s.reverse.dropWhile (fun c => cs.contains c)).reverse

/-- Python `pat in s` (substring containment). -/
def substrIn (pat : PyStr) (s : PyStr) : Bool :=
  match s with
  | [] => pat.isEmpty
  | _ :: rest => pat.isPrefixOf s || substrIn pat rest

/-- Replace the first occurrence of `pat` in `s` by `rep`
(`re.sub(pat, rep, s, count=1)` for a literal, nonempty `pat`). -/
def replaceFirst (s : PyStr) (pat rep : PyStr) : PyStr :=
  match s with
  | [] => []
  | c :: rest =>
    if pat.isPrefixOf s then rep ++ s.drop pat.length
    else c :: replaceFirst rest pat rep

/-- Regex word character `\w` = `[A-Za-z0-9_]` (inputs here are ASCII). -/
def isWordChar (c : Char) : Bool := c.isAlphanum || c = '_'

/-- Whether a regex word boundary `\b` lies between an optional previous
character and an optional next character. -/
def wordBoundary (a b : Option Char) : Bool :=
  (match a with | some c => isWordChar c | none => false) !=
  (match b with | some c => isWordChar c | none => false)

/-- Whether `rf"\b{re.escape(kw)}\b"` matches at the current position of the
scan: `s` is the remaining text and `prev` the character just before it. -/
def matchWordAt (prev : Option Char) (kw s : PyStr) : Bool :=
  kw.isPrefixOf s
  && wordBoundary prev (kw.head?.orElse fun _ => s.head?)
  && wordBoundary (kw.getLast?.orElse fun _ => prev) (s.drop kw.length).head?

/-- Scan of `re.search(rf"\b{re.escape(kw)}\b", t)`: try every position. -/
def reSearchWordAux (kw : PyStr) (prev : Option Char) : PyStr → Bool
  | [] => matchWordAt prev kw []
  | c :: rest => matchWordAt prev kw (c :: rest) || reSearchWordAux kw (some c) rest

/-- `re.search(rf"\b{re.escape(kw)}\b", t) is not None`. -/
def reSearchWord (kw t : PyStr) : Bool := reSearchWordAux kw none t

/-! ## Text Normalizer (src/main.py lines 450-507)

`strip_html`, `tokenize`, `filter_stopwords`. -/

/-- The character class `[a-z0-9+-]` of the token regex in `tokenize`
(src/main.py line 498). -/
def isTokChar (c : Char) : Bool :=
  ('a' ≤ c && c ≤ 'z') || ('0' ≤ c && c ≤ '9') || c = '+' || c = '-'

/-- Accumulator pass splitting a string into its maximal runs of characters
satisfying `p` (`cur` is the current run, reversed). -/
def runsOfAux (p : Char → Bool) : List Char → List Char → List PyStr
  | [], cur => if cur.isEmpty then [] else [cur.reverse]
  | c :: cs, cur =>
    if p c then runsOfAux p cs (c :: cur)
    else if cur.isEmpty then runsOfAux p cs []
    else cur.reverse :: runsOfAux p cs []

/-- The maximal runs of characters satisfying `p`, in order.
`re.findall(r"[...]{n,}", t)` returns exactly the such runs of length ≥ n. -/
def runsOf (p : Char → Bool) (s : PyStr) : List PyStr := runsOfAux p s []

/-- `tokenize(text, min_len)` (src/main.py lines 495-498): lower-case,
replace `[_/|]` by spaces, and extract the maximal `[a-z0-9+-]` runs of
length ≥ `max 1 min_len`. -/
def tokenize (text : PyStr) (min_len : Nat) : List PyStr :=
  let t := pyLower text
  let t := t.map fun c => if c = '_' || c = '/' || c = '|' then ' ' else c
  (runsOf isTokChar t).filter fun r => max 1 min_len ≤ r.length

/-- The fixed STOPWORDS set of src/main.py lines 419-429. -/
def STOPWORDS : List PyStr :=
  (["the", "and", "for", "you", "your", "with", "from", "this", "that", "are",
    "our", "has", "have", "was", "were", "will", "can", "all",
    "any", "into", "more", "most", "such", "other", "than", "then", "them",
    "they", "their", "there", "over", "after", "before",
    "not", "but", "about", "also", "how", "what", "when", "where", "which",
    "while", "who", "whom", "why", "a", "an", "in", "on", "of",
    "to", "by", "as", "at", "is", "it", "be", "or", "we", "i", "me", "my",
    "mine", "yours", "its", "it\u2019s", "it\x27s",
    "new", "pcs", "pc", "set", "size", "color", "colors", "style", "styles",
    "type", "types", "model", "models", "brand",
    "phone", "smartphone", "case", "cases", "accessory", "accessories", "pet",
    "pets", "device", "devices",
    "for-iphone", "iphone", "samsung", "xiaomi", "android", "apple", "pro",
    "max", "ultra", "series", "gen",
    "magnetic", "magsafe", "wireless", "charger", "charging", "usb", "type-c",
    "cable", "cables", "adapter", "adapters",
    "band", "bands", "watch", "watches", "airpods", "earbuds"] : List String).map
    String.toList

/-- `re.fullmatch(r"\d[\d\-]*", w)`: a digit followed by digits or dashes. -/
def isNumericDashed (w : PyStr) : Bool :=
  match w with
  | [] => false
  | d :: rest => d.isDigit && rest.all fun c => c.isDigit || c = '-'

/-- `filter_stopwords(tokens, min_len)` (src/main.py lines 500-507). -/
def filter_stopwords (tokens : List PyStr) (min_len : Nat) : List PyStr :=
  tokens.filter fun w =>
    min_len ≤ w.length && !(STOPWORDS.contains w) && !(isNumericDashed w)

/-- Given the text right after a `<`, return the remainder after the closing
`>` when the regex `<[^>]+>` matches here (at least one non-`>` character
before a `>`), else `none`. -/
def splitTag (l : PyStr) : Option PyStr :=
  let body := l.takeWhile fun c => c ≠ '>'
  if body.isEmpty then none
  else
    match l.drop body.length with
    | '>' :: tail => some tail
    | _ => none

/-- `re.sub(r"<[^>]+>", " ", text)`, fuelled by the input length (each step
consumes at least one character, so `text.length` fuel always suffices). -/
def stripTagsAux : Nat → PyStr → PyStr
  | 0, l => l
  | _ + 1, [] => []
  | fuel + 1, c :: rest =>
    if c = '<' then
      match splitTag rest with
      | some rem => ' ' :: stripTagsAux fuel rem
      | none => '<' :: stripTagsAux fuel rest
    else c :: stripTagsAux fuel rest

/-- Replace every HTML tag `<[^>]+>` by a single space. -/
def stripTags (l : PyStr) : PyStr := stripTagsAux l.length l

/-- `re.sub(r"\s+", " ", text)`: collapse each maximal whitespace run into a
single space (the flag records whether the previous character was whitespace). -/
def collapseWsAux : Bool → PyStr → PyStr
  | _, [] => []
  | prevSpace, c :: cs =>
    if isPySpace c then
      if prevSpace then collapseWsAux true cs else ' ' :: collapseWsAux true cs
    else c :: collapseWsAux false cs

/-- Collapse whitespace runs to single spaces. -/
def collapseWs (l : PyStr) : PyStr := collapseWsAux false l

/-- `strip_html(text)` (src/main.py lines 450-453). `text or ""` turns `None`
into the empty string before any string method is called. -/
def strip_html (text : Option PyStr) : PyStr :=
  pyStrip (collapseWs (stripTags (text.getD [])))

/-- `tokenize` as actually callable on an optional string: `tokenize(None, n)`
raises (`None.lower()`), modelled as `none`; on a string it returns the token
list. -/
def tokenizeE (text : Option PyStr) (min_len : Nat) : Option (List PyStr) :=
  match text with
  | none => none
  | some t => some (tokenize t min_len)

/-- The normalization pipeline of the spec: `strip_html` then `tokenize` then
`filter_stopwords`. `strip_html` always produces a string, so the fallible
`tokenizeE` is fed `some _` and the pipeline never raises. -/
def normalizeE (text : Option PyStr) (min_len : Nat) : Option (List PyStr) :=
  (tokenizeE (some (strip_html text)) min_len).map (filter_stopwords · min_len)

/-! ## Intent classification (src/main.py lines 431-448) -/

/-- The `informational` cue list of `INTENT_LEX` (src/main.py line 432). -/
def lexInformational : List PyStr :=
  (["how", "what", "guide", "tips", "tutorial", "review", "size guide", "faq",
    "benefits", "pros", "cons"] : List String).map String.toList

/-- The `commercial` cue list of `INTENT_LEX` (src/main.py line 433). -/
def lexCommercial : List PyStr :=
  (["best", "top", "compare", "vs", "versus", "brands", "recommend",
    "recommendation", "deal", "discount"] : List String).map String.toList

/-- The `transactional` cue list of `INTENT_LEX` (src/main.py line 434). -/
def lexTransactional : List PyStr :=
  (["buy", "price", "coupon", "free shipping", "order", "checkout", "shop",
    "sale"] : List String).map String.toList

/-- Number of cues of `keys` that match `t` at word boundaries — the
`score[intent]` accumulation of `classify_intent_from_text`. -/
def intentScore (keys : List PyStr) (t : PyStr) : Nat :=
  (keys.filter fun k => reSearchWord (pyLower k) t).length

/-- `max(score, key=score.get)` over the `score` dict, whose insertion order
is informational, commercial, transactional: Python `max` keeps the first key
whose value is not strictly exceeded by a later one. -/
def bestIntent (si sc st : Nat) : String × Nat :=
  if sc > si then (if st > sc then ("transactional", st) else ("commercial", sc))
  else (if st > si then ("transactional", st) else ("informational", si))

/-- `classify_intent_from_text(text)` (src/main.py lines 438-447). -/
def classify_intent_from_text (intentClassify : Bool) (text : Option PyStr) : String :=
  if !intentClassify then "unknown"
  else
    let t := pyLower (text.getD [])
    let best := bestIntent (intentScore lexInformational t)
      (intentScore lexCommercial t) (intentScore lexTransactional t)
    if best.2 > 0 then best.1 else "unknown"

/-! ## Keyword scoring and selection (src/main.py lines 917-926, 1008-1021) -/

/-- `_score_kw(kw, title, body, tags, boost_set)` (src/main.py lines 917-926).
The float constants 2.0, 1.0, 1.5, 1.25, 1.1 are modelled as exact
rationals. -/
def score_kw (kw title body : PyStr) (tags : List PyStr) (boost_set : List PyStr) : ℚ :=
  let s : ℚ := 0
  let s := if reSearchWord kw title then s + 2 else s
  let s := if reSearchWord kw body then s + 1 else s
  let s := if tags.any fun t => substrIn kw (pyLower t) then s + 3/2 else s
  let s := if boost_set.contains kw then s * (3/2) else s
  let s := if kw.contains ' ' then s * (5/4) else s
  let s := if 14 ≤ kw.length then s * (11/10) else s
  s

/-- The first selection loop of `/seo/optimize` (src/main.py lines 1012-1015):
append bigram keywords with positive score until three are chosen. -/
def pickBigrams : List (PyStr × ℚ) → List PyStr → List PyStr
  | [], chosen => chosen
  | (kw, sc) :: rest, chosen =>
    if sc ≤ 0 then pickBigrams rest chosen
    else
      let chosen := chosen ++ [kw]
      if 3 ≤ chosen.length then chosen else pickBigrams rest chosen

/-- The second selection loop of `/seo/optimize` (src/main.py lines 1016-1021):
append unigram keywords with positive score, not already chosen, until five
are chosen. -/
def pickUnigrams : List (PyStr × ℚ) → List PyStr → List PyStr
  | [], chosen => chosen
  | (kw, sc) :: rest, chosen =>
    if sc ≤ 0 then pickUnigrams rest chosen
    else if chosen.contains kw then pickUnigrams rest chosen
    else
      let chosen := chosen ++ [kw]
      if 5 ≤ chosen.length then chosen else pickUnigrams rest chosen

/-- The `chosen` keyword list of `/seo/optimize` (src/main.py lines 1011-1021),
from the already-scored-and-sorted bigram and unigram candidate lists. -/
def selectChosen (scored_bi scored_uni : List (PyStr × ℚ)) : List PyStr :=
  let chosen := pickBigrams scored_bi []
  if chosen.length < 5 then pickUnigrams scored_uni chosen else chosen

/-! ## Title composition (src/main.py lines 928-937) -/

/-- The characters stripped from the right of a composed title:
`.rstrip(" -|·,")` (src/main.py line 937). -/
def SEP_CHARS : List Char := [' ', '-', '|', '·', ',']

/-- The seasonal-phrase loop of `_compose_title` (src/main.py lines 929-933):
first seasonal word fitting the length budget, rendered as `" · {w}"`. -/
def pickSeasonal (titleMaxLen : Nat) (primary benefit cta : PyStr) :
    List PyStr → PyStr
  | [] => []
  | w :: ws =>
    if primary.length + 3 + benefit.length + 3 + cta.length + 3 + w.length ≤ titleMaxLen
    then ' ' :: '·' :: ' ' :: w
    else pickSeasonal titleMaxLen primary benefit cta ws

/-- `_compose_title(primary, benefit, cta)` (src/main.py lines 928-937), with
`SEASONAL_WORDS` and `TITLE_MAX_LEN` as explicit configuration. -/
def compose_title (seasonalWords : List PyStr) (titleMaxLen : Nat)
    (primary benefit cta : PyStr) : PyStr :=
  let seasonal := pickSeasonal titleMaxLen primary benefit cta seasonalWords
  let title := primary ++ " | ".toList ++ benefit ++ seasonal
  let title :=
    if title.length + 3 + cta.length ≤ titleMaxLen
    then title ++ " – ".toList ++ cta
    else title
  pyRstrip (title.take titleMaxLen) SEP_CHARS

/-! ## Related-links injection (src/main.py lines 876-905) -/

/-- The fields of a related product used by the injectors: `handle` and
`title` (empty/`None` title falls back to "View product", matching Python
falsiness). -/
structure RelProd where
  handle : PyStr
  title : PyStr

/-- One `<li>` entry of `inject_related_links_bottom`. -/
def relLi (rp : RelProd) : PyStr :=
  "<li><a href=\"/products/".toList ++ rp.handle ++ "\">".toList ++
    (if rp.title.isEmpty then "View product".toList else rp.title) ++
    "</a></li>".toList

/-- The appended block of `inject_related_links_bottom`:
`"\n".join([MARKER, "<h3>Related Picks</h3>", "<ul>", *lis, "</ul>"])`. -/
def bottomBlock (marker : PyStr) (related : List RelProd) : PyStr :=
  marker ++ "\n<h3>Related Picks</h3>\n<ul>\n".toList ++
    ((related.map relLi).intersperse "\n".toList).flatten ++ "\n</ul>".toList

/-- `inject_related_links_bottom(body_html, related)` (src/main.py lines
876-892), with the section marker as explicit configuration. -/
def inject_related_links_bottom (marker : PyStr) (body_html : PyStr)
    (related : List RelProd) : PyStr :=
  if related.isEmpty then body_html
  else if substrIn marker body_html then body_html
  else body_html ++ "\n\n".toList ++ bottomBlock marker related

/-- One anchor of `inject_related_links_top`. -/
def relAnchor (rp : RelProd) : PyStr :=
  "<a href=\"/products/".toList ++ rp.handle ++ "\">".toList ++
    (if rp.title.isEmpty then "View product".toList else rp.title) ++
    "</a>".toList

/-- The block of `inject_related_links_top`:
`TOP_MARKER` followed by a Quick Picks paragraph joining the anchors with " · ", over the first
two related products. -/
def topBlock (marker : PyStr) (related : List RelProd) : PyStr :=
  marker ++ "\n<p>Quick Picks: ".toList ++
    (((related.take 2).map relAnchor).intersperse " · ".toList).flatten ++
    "</p>\n".toList

/-- `inject_related_links_top(html, related)` (src/main.py lines 894-905),
with the top marker as explicit configuration. The `re.sub(r"(</p>)",
r"\1\n" + block, html, count=1)` call is modelled as replacing the first
`</p>` by `</p>\n` followed by the block. -/
def inject_related_links_top (marker : PyStr) (html : PyStr)
    (related : List RelProd) : PyStr :=
  if related.isEmpty || substrIn marker html then html
  else if substrIn "</p>".toList html then
    replaceFirst html "</p>".toList
      ("</p>".toList ++ "\n".toList ++ topBlock marker related)
  else topBlock marker related ++ html

/-! ## services/importer.py — SEO idempotence gate and write adapter -/

/-- The environment flags of src/services/importer.py used by `needs_update`
and `update_product_seo` (lines 53-55). -/
structure SvcConfig where
  seo_update_handle : Bool
  update_all_images_alt : Bool
  overwrite_always : Bool

/-- A product image as read from the REST payload: `id` and `alt` may be
absent/`None`. -/
structure SvcImage where
  id : Option Nat
  alt : Option PyStr

/-- The product fields read by `needs_update`/`update_product_seo`. -/
structure SvcProduct where
  id : Nat
  handle : Option PyStr
  metafields_global_title_tag : Option PyStr
  metafields_global_description_tag : Option PyStr
  images : List SvcImage

/-- The dict produced by `make_seo` (src/services/importer.py lines 241-258):
keys `handle`, `metafields_global_title_tag`,
`metafields_global_description_tag`, `alt_text`. -/
structure SvcSeo where
  handle : PyStr
  metafields_global_title_tag : PyStr
  metafields_global_description_tag : PyStr
  alt_text : PyStr

/-- `needs_update(product, seo)` (src/services/importer.py lines 260-298). -/
def needs_update (cfg : SvcConfig) (p : SvcProduct) (seo : SvcSeo) : Bool × String :=
  let cur_title := pyStrip (p.metafields_global_title_tag.getD [])
  let cur_desc := pyStrip (p.metafields_global_description_tag.getD [])
  let new_title := pyStrip seo.metafields_global_title_tag
  let new_desc := pyStrip seo.metafields_global_description_tag
  if cur_title ≠ new_title then (true, "title_diff")
  else if cur_desc ≠ new_desc then (true, "desc_diff")
  else if cfg.seo_update_handle ∧ pyStrip (p.handle.getD []) ≠ pyStrip seo.handle then
    (true, "handle_diff")
  else
    let new_alt := pyStrip seo.alt_text
    match p.images with
    | [] => (false, "nochange")
    | first :: rest =>
      if cfg.update_all_images_alt then
        if (first :: rest).all fun img => pyStrip (img.alt.getD []) = new_alt then
          (false, "nochange")
        else (true, "alt_diff_all")
      else
        if pyStrip (first.alt.getD []) ≠ new_alt then (true, "alt_diff_first")
        else (false, "nochange")

/-- "Every checked field matches", stated following the specification text, for the Idempotence
Gate: the trimmed meta title and description agree, the trimmed handle agrees
when handle rewriting is enabled, and — when the product has images — the
trimmed ALT of all images (resp. the first image) equals the proposed ALT,
according to the configured scope. Used to state the `(False, "nochange")`
characterization of `needs_update`. -/
def allFieldsMatch (cfg : SvcConfig) (p : SvcProduct) (seo : SvcSeo) : Prop :=
  pyStrip (p.metafields_global_title_tag.getD []) =
      pyStrip seo.metafields_global_title_tag ∧
  pyStrip (p.metafields_global_description_tag.getD []) =
      pyStrip seo.metafields_global_description_tag ∧
  (cfg.seo_update_handle = true → pyStrip (p.handle.getD []) = pyStrip seo.handle) ∧
  (match p.images with
   | [] => True
   | first :: rest =>
     if cfg.update_all_images_alt = true then
       ∀ img ∈ first :: rest, pyStrip (img.alt.getD []) = pyStrip seo.alt_text
     else pyStrip (first.alt.getD []) = pyStrip seo.alt_text)

/-- A Shopify Admin write issued by `update_product_seo`: the product PUT
carrying the metadata (and optionally the handle), or a per-image ALT PUT. -/
inductive SvcWrite where
  | productPut (pid : Nat) (handle : Option PyStr) (title desc : PyStr)
  | imagePut (pid : Nat) (imgId : Nat) (alt : PyStr)
deriving DecidableEq

/-- Whether a write is the product-metadata PUT. -/
def SvcWrite.isProductPut : SvcWrite → Bool
  | .productPut _ _ _ _ => true
  | .imagePut _ _ _ => false

/-- The image-ALT PUTs issued by `update_product_seo` (src/services/importer.py
lines 322-338): all images with a truthy `id` when `UPDATE_ALL_IMAGES_ALT`,
else just the first image when its `id` is truthy. -/
def altWrites (cfg : SvcConfig) (p : SvcProduct) (seo : SvcSeo) : List SvcWrite :=
  if cfg.update_all_images_alt then
    p.images.filterMap fun img =>
      match img.id with
      | some i => if i = 0 then none else some (.imagePut p.id i seo.alt_text)
      | none => none
  else
    match p.images with
    | [] => []
    | img :: _ =>
      match img.id with
      | some i => if i = 0 then [] else [.imagePut p.id i seo.alt_text]
      | none => []

/-- `update_product_seo(p, seo)` (src/services/importer.py lines 300-343).
`resp` is the response oracle: the HTTP status each PUT would return. The
result pairs the returned `(bool, reason)` with the ordered list of writes
actually issued. -/
def update_product_seo (cfg : SvcConfig) (resp : SvcWrite → Nat)
    (p : SvcProduct) (seo : SvcSeo) : (Bool × String) × List SvcWrite :=
  let nu := needs_update cfg p seo
  if cfg.overwrite_always = false ∧ nu.1 = false then ((false, "nochange"), [])
  else
    let why := if cfg.overwrite_always then "force" else nu.2
    let w1 : SvcWrite := .productPut p.id
      (if cfg.seo_update_handle then some seo.handle else none)
      seo.metafields_global_title_tag seo.metafields_global_description_tag
    let ok1 := resp w1 = 200 || resp w1 = 201
    let altWs := altWrites cfg p seo
    let ok2 := altWs.all fun w => resp w = 200 || resp w = 201
    (if ok1 && ok2 then (true, why) else (false, "api_fail"), w1 :: altWs)

/-! ## Round-robin product listing (src/services/importer.py lines 173-232)

The Shopify REST call `GET products.json?limit=n&since_id=s` returns at most
`n` products with id strictly greater than `s`, in ascending id order. The
store catalog is modelled as the ascending list of its product ids; a call
with a falsy `since_id` (absent parameter) starts at the catalog head. -/

/-- One page request of `list_products_round_robin`: `since` is the current
`since_id` (the parameter is only sent when truthy, i.e. nonzero), `n` the
page limit. -/
def fetchPage (catalog : List Nat) : Option Nat → Nat → List Nat
  | none, n => catalog.take n
  | some s, n =>
    if s = 0 then catalog.take n
    else (catalog.filter fun i => s < i).take n

/-- The `while len(batch) < limit` loop of `list_products_round_robin`
(src/services/importer.py lines 208-228), fuelled: each iteration either
extends `batch` (at most `limit` times) or handles an empty page (at most
twice: one wrap, then the final break), so `limit + 2` fuel is exact. -/
def rrLoop (catalog : List Nat) (limit : Nat) :
    Nat → List Nat → Option Nat → Bool → List Nat × Option Nat
  | 0, batch, since, _ => (batch, since)
  | fuel + 1, batch, since, wrapped =>
    if batch.length < limit then
      let items := fetchPage catalog since (min 250 (limit - batch.length))
      if items.isEmpty then
        if wrapped then (batch, since)
        else rrLoop catalog limit fuel batch none true
      else rrLoop catalog limit fuel (batch ++ items) items.getLast? wrapped
    else (batch, since)

/-- `list_products_round_robin(limit)` (src/services/importer.py lines
192-232) as a function of the catalog and the loaded cursor (`_load_cursor`
returns `None` for a missing/nonpositive stored value). Returns the product
batch (`batch[:limit]`) and the cursor saved by `_save_cursor`. `limit = 0`
models the `limit <= 0` branch, which returns the whole catalog and does not
touch the cursor. -/
def list_products_round_robin (catalog : List Nat) (cursor : Option Nat)
    (limit : Nat) : List Nat × Option Nat :=
  if limit = 0 then (catalog, cursor)
  else
    let r := rrLoop catalog limit (limit + 2) [] cursor false
    (r.1.take limit, r.2)

/-- Phase invariant of the round-robin loop: all products fetched since the
last (re)start of the catalog sweep lie at or before the current cursor
(`none` means the sweep has not fetched anything yet). -/
def pbound (l : List Nat) : Option Nat → Prop
  | none => l = []
  | some s => ∀ x ∈ l, x ≤ s

/-! ## Run lock (src/services/importer.py lines 119-142) -/

/-- The lock file: `none` when absent, `some m` when present with mtime `m`
(seconds). -/
structure LockState where
  lockMtime : Option Nat
deriving DecidableEq

/-- `RunLock.__enter__` (src/services/importer.py lines 124-136). The
`raise RuntimeError("이미 실행 중...")` for a lock younger than 20 minutes is
raised inside the same `try` block of the method and caught by its blanket
`except Exception`, which logs "락 생성 실패(무시하고 진행)" (= "lock creation
failed (ignore and proceed)") and returns `self`. Hence `__enter__` never
propagates an exception: the returned flag — whether the `with RunLock():`
body of `run_all` executes — is always `true`. In the fresh-lock case the
`write_text` is also skipped, so the lock file is left unchanged. -/
def runLockEnter (st : LockState) (now : Nat) : LockState × Bool :=
  match st.lockMtime with
  | some m =>
    if now - m < 20 * 60 then (st, true)
    else ({ lockMtime := some now }, true)
  | none => ({ lockMtime := some now }, true)

/-! ## Required-configuration checks (C9) -/

/-- src/services/importer.py lines 69-70: module import raises `RuntimeError`
iff `SHOPIFY_STORE` is empty. An empty `SHOPIFY_ADMIN_TOKEN` is only logged
as a warning (lines 82-83) and `run_all` performs its first network request
(`GET shop.json`, line 557) without any credential guard. Returns whether the
run is aborted before a network call. -/
def services_aborts_before_network (store _token : String) : Bool :=
  store = ""

/-- src/main.py lines 211-216: the `_missing` list of required environment
values (`REQUIRED_ENVS` insertion order). -/
def main_required_missing (store token ver : String) : List String :=
  (if store = "" then ["SHOPIFY_STORE"] else []) ++
  (if token = "" then ["SHOPIFY_ADMIN_TOKEN"] else []) ++
  (if ver = "" then ["SHOPIFY_API_VERSION"] else [])

/-- src/main.py lines 216-219: when `_missing` is nonempty the module logs an
error, but the `raise SystemExit(...)` on line 219 is commented out, so
startup never aborts. -/
def main_init_aborts (_store _token _ver : String) : Bool :=
  false

/-- src/jobs/importer.py lines 175-184: `run()` logs and returns (aborting
before any network call) iff `SHOPIFY_STORE` or `SHOPIFY_ADMIN_TOKEN` is
empty. Returns whether the run proceeds. -/
def jobs_run_proceeds (store token : String) : Bool :=
  !(store = "") && !(token = "")

/-- src/main.py lines 964-965: `/seo/optimize` returns a 400 error before any
network call iff `SHOPIFY_ADMIN_TOKEN` is empty. -/
def seo_optimize_aborts_early (adminToken : String) : Bool :=
  adminToken = ""

/-! ## Helper lemmas -/

theorem pyRstrip_length_le (s : PyStr) (cs : List Char) :
    (pyRstrip s cs).length ≤ s.length := by
  unfold pyRstrip
  calc (s.reverse.dropWhile fun c => cs.contains c).reverse.length
      = (s.reverse.dropWhile fun c => cs.contains c).length := by
        rw [List.length_reverse]
    _ ≤ s.reverse.length := (List.dropWhile_sublist _).length_le
    _ = s.length := List.length_reverse s

theorem pyRstrip_last_not_mem (s : PyStr) (cs : List Char) :
    ((pyRstrip s cs).getLast?.all fun c => !(cs.contains c)) = true := by
  unfold pyRstrip
  rw [List.getLast?_reverse]
  have h := List.head?_dropWhile_not (fun c => cs.contains c) s.reverse
  revert h
  cases (s.reverse.dropWhile fun c => cs.contains c).head? with
  | none => intro _; rfl
  | some x => intro h; simpa using h

theorem compose_title_length_le (seasonalWords : List PyStr) (titleMaxLen : Nat)
    (primary benefit cta : PyStr) :
    (compose_title seasonalWords titleMaxLen primary benefit cta).length ≤ titleMaxLen := by
  unfold compose_title
  refine le_trans (pyRstrip_length_le _ _) ?_
  rw [List.length_take]
  exact min_le_left _ _

/-! ## C5 -/

/-- C5: every title composed by `_compose_title` has length at most
`TITLE_MAX_LEN` and never ends in one of the separator characters
`-`, `|`, `·`, `,`, space — for every primary keyword, benefit phrase, CTA
phrase, seasonal-word list and configured maximum (in particular the default
60): the final `title[:TITLE_MAX_LEN].rstrip(" -|·,")` enforces both. -/
theorem C5_compose_title_bounded_no_trailing_sep (seasonalWords : List PyStr)
    (titleMaxLen : Nat) (primary benefit cta : PyStr) :
    (compose_title seasonalWords titleMaxLen primary benefit cta).length ≤ titleMaxLen ∧
    ((compose_title seasonalWords titleMaxLen primary benefit cta).getLast?.all
      fun c => !(SEP_CHARS.contains c)) = true := by
  constructor
  · exact compose_title_length_le seasonalWords titleMaxLen primary benefit cta
  · unfold compose_title
    exact pyRstrip_last_not_mem _ _

/-! ## C7 -/

/-- C7: the normalization pipeline (`strip_html`, then `tokenize`, then
`filter_stopwords`) never raises for any input — `strip_html` converts
`None` to `""` before any string method is applied, so the fallible
`tokenizeE` is always fed an actual string — and both `None` and the empty
string normalize to the empty token sequence. -/
theorem C7_normalize_total_and_empty (text : Option PyStr) (min_len : Nat) :
    (normalizeE text min_len).isSome = true ∧
    normalizeE none min_len = some [] ∧
    normalizeE (some []) min_len = some [] :=
  ⟨rfl, rfl, rfl⟩

/-! ## C8 -/

/-- C8 (code bug): the claim says a run-lock marker file younger than the
20-minute staleness threshold makes `run_all` exit immediately. In the code,
the `raise RuntimeError` for that very case sits inside the `try` block of
`RunLock.__enter__`, whose blanket `except Exception` logs and proceeds; so it
returns normally (the flag is `true`: the whole `run_all` body executes,
products are fetched and the cursor is rewritten), and the lock file is left
unchanged rather than the run aborting. -/
theorem C8_fresh_lock_still_proceeds (m now : Nat) (h : now - m < 20 * 60) :
    runLockEnter ⟨some m⟩ now = (⟨some m⟩, true) := by
  simp [runLockEnter, h]

theorem C8_fresh_lock_still_proceeds_witness :
    60 - 0 < 20 * 60 ∧ runLockEnter ⟨some 0⟩ 60 = (⟨some 0⟩, true) :=
  ⟨by decide, C8_fresh_lock_still_proceeds 0 60 (by decide)⟩

/-! ## C9 -/

/-- C9 counterexample: with `SHOPIFY_STORE` set and `SHOPIFY_ADMIN_TOKEN`
empty, the admin token is listed as a missing required value, yet neither
main.py startup (its `raise SystemExit` is commented out) nor the services
module (which only checks the store) aborts: the run proceeds to network
calls, contradicting "fatal … abort before any network call". -/
theorem C9_counterexample_token_missing_not_fatal :
    main_required_missing "bj0b8k-kg" "" "2025-07" = ["SHOPIFY_ADMIN_TOKEN"] ∧
    main_init_aborts "bj0b8k-kg" "" "2025-07" = false ∧
    services_aborts_before_network "bj0b8k-kg" "" = false := by
  refine ⟨by decide, rfl, by decide⟩

/-- C9 (amended): a missing store identifier is fatal in services/importer
(module import raises before any network call), and `jobs/importer.run`
aborts when either the store or the token is missing, as does `/seo/optimize`
for a missing token; but a missing admin token is *not* fatal for main.py
startup (it is logged as a missing required env and execution continues) nor
for the services module. -/
theorem C9_config_abort_scope (store token ver : String) :
    (store = "" → services_aborts_before_network store token = true) ∧
    (store = "" ∨ token = "" → jobs_run_proceeds store token = false) ∧
    (token = "" → seo_optimize_aborts_early token = true) ∧
    (token = "" → "SHOPIFY_ADMIN_TOKEN" ∈ main_required_missing store token ver) ∧
    main_init_aborts store token ver = false := by
  refine ⟨?_, ?_, ?_, ?_, rfl⟩
  · intro h; simp [services_aborts_before_network, h]
  · rintro (h | h) <;> simp [jobs_run_proceeds, h]
  · intro h; simp [seo_optimize_aborts_early, h]
  · intro h; simp [main_required_missing, h]

theorem C9_config_abort_scope_witness :
    jobs_run_proceeds "bj0b8k-kg" "" = false ∧
    seo_optimize_aborts_early "" = true :=
  ⟨(C9_config_abort_scope "bj0b8k-kg" "" "2025-07").2.1 (Or.inr rfl),
   (C9_config_abort_scope "bj0b8k-kg" "" "2025-07").2.2.1 rfl⟩

/-! ## C6 -/

theorem bestIntent_snd (si sc st : Nat) : (bestIntent si sc st).2 = max (max si sc) st := by
  unfold bestIntent
  split_ifs <;> simp <;> omega

theorem bestIntent_fst_ne_unknown (si sc st : Nat) : (bestIntent si sc st).1 ≠ "unknown" := by
  unfold bestIntent
  split_ifs <;> simp

theorem classify_eq_ite (t : PyStr) :
    classify_intent_from_text true (some t) =
      (if (bestIntent (intentScore lexInformational (pyLower t))
            (intentScore lexCommercial (pyLower t))
            (intentScore lexTransactional (pyLower t))).2 > 0
       then (bestIntent (intentScore lexInformational (pyLower t))
            (intentScore lexCommercial (pyLower t))
            (intentScore lexTransactional (pyLower t))).1
       else "unknown") := rfl

/-- C6 counterexample: the claim says tied maximal intent scores yield
`"unknown"`. On `"best buy"` the commercial cue `"best"` and the
transactional cue `"buy"` tie at score 1 each, yet `max(score,
key=score.get)` keeps the first-inserted key among the maximal ones, so the
code returns `"commercial"`, not `"unknown"`. -/
theorem C6_counterexample_tie_not_unknown :
    classify_intent_from_text true (some ("best buy".toList)) = "commercial" ∧
    ("commercial" : String) ≠ "unknown" :=
  ⟨by decide, by decide⟩

/-- C6 (amended): intent cues match only at word boundaries, and the
classifier returns `"unknown"` exactly when no cue of any of the three lists
matches; on ties the *first* intent in the fixed dict order informational,
commercial, transactional wins (rather than returning `"unknown"`). In
particular `"buyers guide"` does not trigger transactional intent from
`"buy"` occurring inside `"buyers"`. -/
theorem C6_intent_word_boundary_first_wins (t : PyStr) :
    (classify_intent_from_text true (some t) = "unknown" ↔
      (intentScore lexInformational (pyLower t) = 0 ∧
       intentScore lexCommercial (pyLower t) = 0 ∧
       intentScore lexTransactional (pyLower t) = 0)) ∧
    (0 < intentScore lexInformational (pyLower t) →
     intentScore lexCommercial (pyLower t) ≤ intentScore lexInformational (pyLower t) →
     intentScore lexTransactional (pyLower t) ≤ intentScore lexInformational (pyLower t) →
     classify_intent_from_text true (some t) = "informational") ∧
    (intentScore lexInformational (pyLower t) < intentScore lexCommercial (pyLower t) →
     intentScore lexTransactional (pyLower t) ≤ intentScore lexCommercial (pyLower t) →
     classify_intent_from_text true (some t) = "commercial") ∧
    (intentScore lexInformational (pyLower t) < intentScore lexTransactional (pyLower t) →
     intentScore lexCommercial (pyLower t) < intentScore lexTransactional (pyLower t) →
     classify_intent_from_text true (some t) = "transactional") ∧
    classify_intent_from_text true (some ("buyers guide".toList)) ≠ "transactional" := by
  rw [classify_eq_ite]
  set si := intentScore lexInformational (pyLower t) with hsi
  set sc := intentScore lexCommercial (pyLower t) with hsc
  set st := intentScore lexTransactional (pyLower t) with hst
  refine ⟨?_, ?_, ?_, ?_, by decide⟩
  · constructor
    · intro h
      by_contra hne
      have hpos : 0 < (bestIntent si sc st).2 := by
        rw [bestIntent_snd]; omega
      rw [if_pos hpos] at h
      exact bestIntent_fst_ne_unknown si sc st h
    · rintro ⟨h1, h2, h3⟩
      have hz : (bestIntent si sc st).2 = 0 := by
        rw [bestIntent_snd]; omega
      simp [hz]
  · intro h1 h2 h3
    have hb : bestIntent si sc st = ("informational", si) := by
      unfold bestIntent
      rw [if_neg (by omega), if_neg (by omega)]
    rw [hb, if_pos h1]
  · intro h1 h2
    have hb : bestIntent si sc st = ("commercial", sc) := by
      unfold bestIntent
      rw [if_pos h1, if_neg (by omega)]
    rw [hb, if_pos (by simpa using Nat.lt_of_le_of_lt (Nat.zero_le si) h1)]
  · intro h1 h2
    have hb : bestIntent si sc st = ("transactional", st) := by
      unfold bestIntent
      by_cases h : sc > si
      · rw [if_pos h, if_pos h2]
      · rw [if_neg h, if_pos h1]
    rw [hb, if_pos (by simpa using Nat.lt_of_le_of_lt (Nat.zero_le si) h1)]

theorem C6_intent_word_boundary_first_wins_witness :
    classify_intent_from_text true (some ("buyers guide".toList)) = "informational" :=
  (C6_intent_word_boundary_first_wins ("buyers guide".toList)).2.1
    (by decide) (by decide) (by decide)

/-! ## C10 -/

theorem isPrefixOf_append_self (p b : List Char) : p.isPrefixOf (p ++ b) = true := by
  induction p with
  | nil => simp [List.isPrefixOf]
  | cons c t ih => simp [List.isPrefixOf, ih]

theorem substrIn_of_isPrefixOf {pat s : PyStr} (h : pat.isPrefixOf s = true) :
    substrIn pat s = true := by
  cases s with
  | nil =>
    cases pat with
    | nil => rfl
    | cons c t => simp [List.isPrefixOf] at h
  | cons c rest => simp [substrIn, h]

theorem substrIn_sandwich (a pat b : PyStr) : substrIn pat (a ++ pat ++ b) = true := by
  induction a with
  | nil =>
    rw [List.nil_append]
    exact substrIn_of_isPrefixOf (isPrefixOf_append_self pat b)
  | cons c t ih =>
    rw [List.cons_append, List.cons_append]
    simp only [substrIn, Bool.or_eq_true]
    right
    simpa using ih

theorem replaceFirst_sandwich (s : PyStr) (pat rep : PyStr) (hp : pat ≠ [])
    (hs : substrIn pat s = true) :
    ∃ u v, replaceFirst s pat rep = u ++ rep ++ v := by
  induction s with
  | nil =>
    exfalso
    apply hp
    simpa [substrIn, List.isEmpty_iff] using hs
  | cons c rest ih =>
    by_cases h : pat.isPrefixOf (c :: rest) = true
    · exact ⟨[], (c :: rest).drop pat.length, by simp [replaceFirst, h]⟩
    · have hs' : substrIn pat rest = true := by
        simp only [substrIn, Bool.or_eq_true] at hs
        cases hs with
        | inl hl => exact absurd hl h
        | inr hr => exact hr
      obtain ⟨u, v, huv⟩ := ih hs'
      refine ⟨c :: u, v, ?_⟩
      simp only [replaceFirst]
      rw [if_neg (by simpa using h), huv]
      simp

theorem substrIn_append_block (body mid marker tail : PyStr) :
    substrIn marker (body ++ mid ++ (marker ++ tail)) = true := by
  have h : body ++ mid ++ (marker ++ tail) = (body ++ mid) ++ marker ++ tail := by
    simp [List.append_assoc]
  rw [h]
  exact substrIn_sandwich _ _ _

theorem bottomBlock_shape (marker : PyStr) (related : List RelProd) :
    bottomBlock marker related =
      marker ++ ("\n<h3>Related Picks</h3>\n<ul>\n".toList ++
        ((related.map relLi).intersperse "\n".toList).flatten ++ "\n</ul>".toList) := by
  unfold bottomBlock
  simp [List.append_assoc]

theorem topBlock_shape (marker : PyStr) (related : List RelProd) :
    topBlock marker related =
      marker ++ ("\n<p>Quick Picks: ".toList ++
        (((related.take 2).map relAnchor).intersperse " · ".toList).flatten ++
        "</p>\n".toList) := by
  unfold topBlock
  simp [List.append_assoc]

theorem substrIn_inject_bottom (marker body : PyStr) (related : List RelProd)
    (hrel : related ≠ []) :
    substrIn marker (inject_related_links_bottom marker body related) = true := by
  unfold inject_related_links_bottom
  rw [if_neg (by simpa [List.isEmpty_iff] using hrel)]
  by_cases h : substrIn marker body = true
  · rw [if_pos h]; exact h
  · rw [if_neg h, bottomBlock_shape]
    exact substrIn_append_block _ _ _ _

theorem substrIn_inject_top (marker html : PyStr) (related : List RelProd)
    (hrel : related ≠ []) :
    substrIn marker (inject_related_links_top marker html related) = true := by
  unfold inject_related_links_top
  by_cases hm : substrIn marker html = true
  · rw [if_pos (by simp [hm])]; exact hm
  · rw [if_neg (by simp [hm, List.isEmpty_iff, hrel])]
    by_cases hp : substrIn "</p>".toList html = true
    · rw [if_pos hp]
      obtain ⟨u, v, huv⟩ := replaceFirst_sandwich html "</p>".toList
        ("</p>".toList ++ "\n".toList ++ topBlock marker related) (by decide) hp
      rw [huv, topBlock_shape]
      have h2 : u ++ ("</p>".toList ++ "\n".toList ++ (marker ++
          ("\n<p>Quick Picks: ".toList ++
            (((related.take 2).map relAnchor).intersperse " · ".toList).flatten ++
            "</p>\n".toList))) ++ v =
          (u ++ "</p>".toList ++ "\n".toList) ++ marker ++
          (("\n<p>Quick Picks: ".toList ++
            (((related.take 2).map relAnchor).intersperse " · ".toList).flatten ++
            "</p>\n".toList) ++ v) := by
        simp [List.append_assoc]
      rw [h2]
      exact substrIn_sandwich _ _ _
    · rw [if_neg hp, topBlock_shape, List.append_assoc]
      have h3 : marker ++ (("\n<p>Quick Picks: ".toList ++
          (((related.take 2).map relAnchor).intersperse " · ".toList).flatten ++
          "</p>\n".toList) ++ html) =
          [] ++ marker ++ (("\n<p>Quick Picks: ".toList ++
          (((related.take 2).map relAnchor).intersperse " · ".toList).flatten ++
          "</p>\n".toList) ++ html) := by simp
      rw [h3]
      exact substrIn_sandwich _ _ _

/-- C10: related-links injection is idempotent. For every body HTML and every
non-empty related list: a body already containing the bottom section marker
is returned unchanged by `inject_related_links_bottom`, a body already
containing the top marker is returned unchanged by
`inject_related_links_top`, and consequently applying either injector twice
equals applying it once (the injected block always contains the marker). -/
theorem C10_inject_related_links_idempotent (marker body html : PyStr)
    (related : List RelProd) (hrel : related ≠ []) :
    (substrIn marker body = true →
      inject_related_links_bottom marker body related = body) ∧
    inject_related_links_bottom marker
        (inject_related_links_bottom marker body related) related =
      inject_related_links_bottom marker body related ∧
    (substrIn marker html = true →
      inject_related_links_top marker html related = html) ∧
    inject_related_links_top marker
        (inject_related_links_top marker html related) related =
      inject_related_links_top marker html related := by
  have hne : related.isEmpty = false := by simpa [List.isEmpty_iff] using hrel
  have hbot : ∀ b : PyStr, substrIn marker b = true →
      inject_related_links_bottom marker b related = b := by
    intro b hb
    unfold inject_related_links_bottom
    rw [if_neg (by simp [hne]), if_pos hb]
  have htop : ∀ h : PyStr, substrIn marker h = true →
      inject_related_links_top marker h related = h := by
    intro h hh
    unfold inject_related_links_top
    rw [if_pos (by simp [hh])]
  refine ⟨hbot body, ?_, htop html, ?_⟩
  · exact hbot _ (substrIn_inject_bottom marker body related hrel)
  · exact htop _ (substrIn_inject_top marker html related hrel)

theorem C10_inject_related_links_idempotent_witness :
    inject_related_links_bottom ("<!--related-picks-->".toList)
        ("<!--related-picks-->".toList) [⟨"h1".toList, "T1".toList⟩] =
      "<!--related-picks-->".toList :=
  (C10_inject_related_links_idempotent ("<!--related-picks-->".toList)
      ("<!--related-picks-->".toList) [] [⟨"h1".toList, "T1".toList⟩]
      (by simp)).1 (by decide)

/-! ## C3 -/

theorem needs_update_title_diff (cfg : SvcConfig) (p : SvcProduct) (seo : SvcSeo)
    (h : pyStrip (p.metafields_global_title_tag.getD []) ≠
      pyStrip seo.metafields_global_title_tag) :
    needs_update cfg p seo = (true, "title_diff") := by
  simp only [needs_update]
  rw [if_pos h]

theorem needs_update_desc_diff (cfg : SvcConfig) (p : SvcProduct) (seo : SvcSeo)
    (ht : pyStrip (p.metafields_global_title_tag.getD []) =
      pyStrip seo.metafields_global_title_tag)
    (hd : pyStrip (p.metafields_global_description_tag.getD []) ≠
      pyStrip seo.metafields_global_description_tag) :
    needs_update cfg p seo = (true, "desc_diff") := by
  simp only [needs_update]
  rw [if_neg (by simpa using ht), if_pos hd]

theorem needs_update_false_iff (cfg : SvcConfig) (p : SvcProduct) (seo : SvcSeo) :
    needs_update cfg p seo = (false, "nochange") ↔ allFieldsMatch cfg p seo := by
  unfold needs_update allFieldsMatch
  rcases hImg : p.images with _ | ⟨first, rest⟩ <;> simp only [hImg] <;>
    split_ifs <;> simp_all [List.all_eq_true]

/-- C3: `needs_update` compares the trimmed meta title first and then the
trimmed meta description — returning `(True, "title_diff")` whenever the
trimmed titles differ and `(True, "desc_diff")` when the titles agree but the
trimmed descriptions differ; with no images the ALT comparison is vacuous
(the result does not depend on the proposed ALT text at all); and it returns
`(False, "nochange")` exactly when every checked field matches. -/
theorem C3_needs_update_diff_order_and_nochange (cfg : SvcConfig) (p : SvcProduct)
    (seo : SvcSeo) :
    (pyStrip (p.metafields_global_title_tag.getD []) ≠
        pyStrip seo.metafields_global_title_tag →
      needs_update cfg p seo = (true, "title_diff")) ∧
    (pyStrip (p.metafields_global_title_tag.getD []) =
        pyStrip seo.metafields_global_title_tag →
      pyStrip (p.metafields_global_description_tag.getD []) ≠
        pyStrip seo.metafields_global_description_tag →
      needs_update cfg p seo = (true, "desc_diff")) ∧
    (p.images = [] → ∀ alt1 alt2 : PyStr,
      needs_update cfg p { seo with alt_text := alt1 } =
        needs_update cfg p { seo with alt_text := alt2 }) ∧
    (needs_update cfg p seo = (false, "nochange") ↔ allFieldsMatch cfg p seo) := by
  refine ⟨needs_update_title_diff cfg p seo, needs_update_desc_diff cfg p seo,
    ?_, needs_update_false_iff cfg p seo⟩
  intro hImg alt1 alt2
  unfold needs_update
  simp only [hImg]

theorem C3_needs_update_diff_order_and_nochange_witness :
    needs_update ⟨false, false, false⟩
        ⟨7, none, some "Old title".toList, none, []⟩
        ⟨[], "New title".toList, [], []⟩ = (true, "title_diff") :=
  (C3_needs_update_diff_order_and_nochange ⟨false, false, false⟩
      ⟨7, none, some "Old title".toList, none, []⟩
      ⟨[], "New title".toList, [], []⟩).1 (by decide)

/-! ## C2 -/

theorem altWrites_all_imagePut (cfg : SvcConfig) (p : SvcProduct) (seo : SvcSeo) :
    ∀ w ∈ altWrites cfg p seo, w.isProductPut = false := by
  intro w hw
  unfold altWrites at hw
  split at hw
  · obtain ⟨img, _, hf⟩ := List.mem_filterMap.mp hw
    split at hf
    · split at hf
      · exact absurd hf (by simp)
      · rw [Option.some_inj] at hf
        rw [← hf]
        rfl
    · exact absurd hf (by simp)
  · split at hw
    · simp at hw
    · split at hw
      · split at hw
        · simp at hw
        · simp at hw
          rw [hw]
          rfl
      · simp at hw

theorem altWrites_countP_productPut (cfg : SvcConfig) (p : SvcProduct) (seo : SvcSeo) :
    (altWrites cfg p seo).countP (·.isProductPut) = 0 := by
  rw [List.countP_eq_zero]
  intro w hw
  simp [altWrites_all_imagePut cfg p seo w hw]

/-- C2: with the always-overwrite flag off, `update_product_seo` on a product
the Idempotence Gate reports as unchanged returns `(False, "nochange")` and
issues no write at all; on a product whose trimmed meta title differs from
the composed one it issues exactly one product-metadata PUT (the image-ALT
PUTs are separate image writes, never metadata writes). -/
theorem C2_apply_short_circuit_and_single_metadata_write (cfg : SvcConfig)
    (resp : SvcWrite → Nat) (p : SvcProduct) (seo : SvcSeo)
    (hov : cfg.overwrite_always = false) :
    ((needs_update cfg p seo).1 = false →
      update_product_seo cfg resp p seo = ((false, "nochange"), [])) ∧
    (pyStrip (p.metafields_global_title_tag.getD []) ≠
        pyStrip seo.metafields_global_title_tag →
      (update_product_seo cfg resp p seo).2.countP (·.isProductPut) = 1) := by
  constructor
  · intro hnu
    unfold update_product_seo
    rw [if_pos ⟨hov, hnu⟩]
  · intro ht
    have hnu : (needs_update cfg p seo).1 = true := by
      rw [needs_update_title_diff cfg p seo ht]
    unfold update_product_seo
    rw [if_neg (by simp [hnu])]
    simp only
    rw [List.countP_cons_of_pos _ _ (by rfl)]
    rw [altWrites_countP_productPut]

theorem C2_apply_short_circuit_and_single_metadata_write_witness :
    update_product_seo ⟨false, false, false⟩ (fun _ => 200)
        ⟨7, none, some "T".toList, some "D".toList, []⟩
        ⟨[], "T".toList, "D".toList, "A".toList⟩ = ((false, "nochange"), []) ∧
    (update_product_seo ⟨false, false, false⟩ (fun _ => 200)
        ⟨8, none, some "Old".toList, some "D".toList,
          [⟨some 5, some "A".toList⟩]⟩
        ⟨[], "New".toList, "D".toList, "A".toList⟩).2.countP
      (·.isProductPut) = 1 :=
  ⟨(C2_apply_short_circuit_and_single_metadata_write ⟨false, false, false⟩
      (fun _ => 200) ⟨7, none, some "T".toList, some "D".toList, []⟩
      ⟨[], "T".toList, "D".toList, "A".toList⟩ rfl).1 (by decide),
   (C2_apply_short_circuit_and_single_metadata_write ⟨false, false, false⟩
      (fun _ => 200) ⟨8, none, some "Old".toList, some "D".toList,
        [⟨some 5, some "A".toList⟩]⟩
      ⟨[], "New".toList, "D".toList, "A".toList⟩ rfl).2 (by decide)⟩

/-! ## C4 -/

theorem pickBigrams_mem (x : PyStr) :
    ∀ (l : List (PyStr × ℚ)) (chosen : List PyStr), x ∈ pickBigrams l chosen →
      x ∈ chosen ∨ ∃ sc, (x, sc) ∈ l ∧ 0 < sc := by
  intro l
  induction l with
  | nil =>
    intro chosen hx
    simp only [pickBigrams] at hx
    exact Or.inl hx
  | cons pr rest ih =>
    intro chosen hx
    obtain ⟨kw, sc⟩ := pr
    simp only [pickBigrams] at hx
    by_cases hsc : sc ≤ 0
    · rw [if_pos hsc] at hx
      rcases ih chosen hx with h | ⟨sc2, hmem, hpos⟩
      · exact Or.inl h
      · exact Or.inr ⟨sc2, List.mem_cons_of_mem _ hmem, hpos⟩
    · rw [if_neg hsc] at hx
      have hpos : 0 < sc := lt_of_not_le hsc
      by_cases hlen : 3 ≤ (chosen ++ [kw]).length
      · rw [if_pos hlen] at hx
        rcases List.mem_append.mp hx with h | h
        · exact Or.inl h
        · rw [List.mem_singleton] at h
          subst h
          exact Or.inr ⟨sc, List.mem_cons_self _ _, hpos⟩
      · rw [if_neg hlen] at hx
        rcases ih _ hx with h | ⟨sc2, hmem, hpos2⟩
        · rcases List.mem_append.mp h with h | h
          · exact Or.inl h
          · rw [List.mem_singleton] at h
            subst h
            exact Or.inr ⟨sc, List.mem_cons_self _ _, hpos⟩
        · exact Or.inr ⟨sc2, List.mem_cons_of_mem _ hmem, hpos2⟩

theorem pickUnigrams_mem (x : PyStr) :
    ∀ (l : List (PyStr × ℚ)) (chosen : List PyStr), x ∈ pickUnigrams l chosen →
      x ∈ chosen ∨ ∃ sc, (x, sc) ∈ l ∧ 0 < sc := by
  intro l
  induction l with
  | nil =>
    intro chosen hx
    simp only [pickUnigrams] at hx
    exact Or.inl hx
  | cons pr rest ih =>
    intro chosen hx
    obtain ⟨kw, sc⟩ := pr
    simp only [pickUnigrams] at hx
    by_cases hsc : sc ≤ 0
    · rw [if_pos hsc] at hx
      rcases ih chosen hx with h | ⟨sc2, hmem, hpos⟩
      · exact Or.inl h
      · exact Or.inr ⟨sc2, List.mem_cons_of_mem _ hmem, hpos⟩
    · rw [if_neg hsc] at hx
      have hpos : 0 < sc := lt_of_not_le hsc
      by_cases hdup : chosen.contains kw = true
      · rw [if_pos hdup] at hx
        rcases ih chosen hx with h | ⟨sc2, hmem, hpos2⟩
        · exact Or.inl h
        · exact Or.inr ⟨sc2, List.mem_cons_of_mem _ hmem, hpos2⟩
      · rw [if_neg hdup] at hx
        by_cases hlen : 5 ≤ (chosen ++ [kw]).length
        · rw [if_pos hlen] at hx
          rcases List.mem_append.mp hx with h | h
          · exact Or.inl h
          · rw [List.mem_singleton] at h
            subst h
            exact Or.inr ⟨sc, List.mem_cons_self _ _, hpos⟩
        · rw [if_neg hlen] at hx
          rcases ih _ hx with h | ⟨sc2, hmem, hpos2⟩
          · rcases List.mem_append.mp h with h | h
            · exact Or.inl h
            · rw [List.mem_singleton] at h
              subst h
              exact Or.inr ⟨sc, List.mem_cons_self _ _, hpos⟩
          · exact Or.inr ⟨sc2, List.mem_cons_of_mem _ hmem, hpos2⟩

theorem selectChosen_pos (title body : PyStr) (tags boost : List PyStr)
    (scored_bi scored_uni : List (PyStr × ℚ))
    (h1 : ∀ pr ∈ scored_bi, pr.2 = score_kw pr.1 title body tags boost)
    (h2 : ∀ pr ∈ scored_uni, pr.2 = score_kw pr.1 title body tags boost) :
    ∀ k ∈ selectChosen scored_bi scored_uni,
      0 < score_kw k title body tags boost := by
  intro k hk
  have fromBi : k ∈ pickBigrams scored_bi [] →
      0 < score_kw k title body tags boost := by
    intro h
    rcases pickBigrams_mem k scored_bi [] h with h0 | ⟨sc, hmem, hpos⟩
    · simp at h0
    · have hsc := h1 (k, sc) hmem
      simp only at hsc
      rwa [hsc] at hpos
  unfold selectChosen at hk
  by_cases hlen : (pickBigrams scored_bi []).length < 5
  · rw [if_pos hlen] at hk
    rcases pickUnigrams_mem k scored_uni _ hk with h | ⟨sc, hmem, hpos⟩
    · exact fromBi h
    · have hsc := h2 (k, sc) hmem
      simp only at hsc
      rwa [hsc] at hpos
  · rw [if_neg hlen] at hk
    exact fromBi hk

/-- C4: the keyword score computed by `_score_kw` equals the sum of 2 (whole
word in the title), 1 (whole word in the stripped body) and 3/2 (substring of
some tag), multiplied by 3/2 when the keyword is in the boost set, by 5/4
when it is a bigram (contains a space) and by 11/10 when its length is at
least 14; and the `/seo/optimize` selection loops never choose a keyword
whose score is ≤ 0. -/
theorem C4_score_formula_and_positive_selection (kw title body : PyStr)
    (tags boost : List PyStr) (scored_bi scored_uni : List (PyStr × ℚ)) :
    score_kw kw title body tags boost =
      ((if reSearchWord kw title then (2 : ℚ) else 0) +
       (if reSearchWord kw body then (1 : ℚ) else 0) +
       (if tags.any fun t => substrIn kw (pyLower t) then (3 / 2 : ℚ) else 0)) *
      (if boost.contains kw then (3 / 2 : ℚ) else 1) *
      (if kw.contains ' ' then (5 / 4 : ℚ) else 1) *
      (if 14 ≤ kw.length then (11 / 10 : ℚ) else 1) ∧
    ((∀ pr ∈ scored_bi, pr.2 = score_kw pr.1 title body tags boost) →
     (∀ pr ∈ scored_uni, pr.2 = score_kw pr.1 title body tags boost) →
     ∀ k ∈ selectChosen scored_bi scored_uni,
       0 < score_kw k title body tags boost) := by
  constructor
  · simp only [score_kw]
    split_ifs <;> ring
  · exact selectChosen_pos title body tags boost scored_bi scored_uni

theorem C4_score_formula_and_positive_selection_witness :
    (0 : ℚ) < score_kw "abc".toList "abc".toList [] [] [] := by
  have hscore : score_kw "abc".toList "abc".toList [] [] [] = 2 := by
    norm_num [score_kw,
      (by decide : reSearchWord ['a', 'b', 'c'] ['a', 'b', 'c'] = true),
      (by decide : reSearchWord ['a', 'b', 'c'] [] = false),
      (by decide : ¬(' ' = 'a' ∨ ' ' = 'b' ∨ ' ' = 'c'))]
  have hsel : selectChosen [] [("abc".toList, (2 : ℚ))] = ["abc".toList] := by
    norm_num [selectChosen, pickBigrams, pickUnigrams]
  have h2 : ∀ pr ∈ [("abc".toList, (2 : ℚ))],
      pr.2 = score_kw pr.1 "abc".toList [] [] [] := by
    intro pr hpr
    rw [List.mem_singleton] at hpr
    subst hpr
    exact hscore.symm
  exact (C4_score_formula_and_positive_selection "abc".toList "abc".toList []
    [] [] [] [("abc".toList, 2)]).2 (by simp) h2 "abc".toList
    (hsel ▸ List.mem_singleton_self _)

/-! ## C1 -/

theorem pbound_nil (o : Option Nat) : pbound [] o := by
  cases o with
  | none => rfl
  | some s => intro x hx; cases hx

theorem sorted_le_getLast {l : List Nat} (hl : l.Pairwise (· < ·)) {x m : Nat}
    (hx : x ∈ l) (hm : l.getLast? = some m) : x ≤ m := by
  obtain ⟨ys, rfl⟩ := List.getLast?_eq_some_iff.mp hm
  rcases List.mem_append.mp hx with h | h
  · exact le_of_lt ((List.pairwise_append.mp hl).2.2 x h m (List.mem_singleton_self m))
  · rw [List.mem_singleton] at h
    exact le_of_eq h

theorem mem_of_getLast?_eq {l : List Nat} {m : Nat} (hm : l.getLast? = some m) :
    m ∈ l := by
  obtain ⟨ys, rfl⟩ := List.getLast?_eq_some_iff.mp hm
  exact List.mem_append.mpr (Or.inr (List.mem_singleton_self m))

theorem fetchPage_sublist (catalog : List Nat) (since : Option Nat) (n : Nat) :
    (fetchPage catalog since n).Sublist catalog := by
  cases since with
  | none => exact List.take_sublist n catalog
  | some s =>
    simp only [fetchPage]
    by_cases h : s = 0
    · rw [if_pos h]
      exact List.take_sublist n catalog
    · rw [if_neg h]
      exact (List.take_sublist _ _).trans (List.filter_sublist catalog)

theorem fetchPage_pairwise (catalog : List Nat) (hs : catalog.Pairwise (· < ·))
    (since : Option Nat) (n : Nat) :
    (fetchPage catalog since n).Pairwise (· < ·) :=
  List.Pairwise.sublist (fetchPage_sublist catalog since n) hs

theorem fetchPage_nodup (catalog : List Nat) (hs : catalog.Pairwise (· < ·))
    (since : Option Nat) (n : Nat) : (fetchPage catalog since n).Nodup :=
  List.Pairwise.imp (fun h => Nat.ne_of_lt h)
    (fetchPage_pairwise catalog hs since n)

theorem fetchPage_subset (catalog : List Nat) (since : Option Nat) (n : Nat) :
    ∀ x ∈ fetchPage catalog since n, x ∈ catalog :=
  fun _ hx => (fetchPage_sublist catalog since n).subset hx

theorem fetchPage_gt (catalog : List Nat) {s : Nat} (hs0 : s ≠ 0) (n : Nat) :
    ∀ x ∈ fetchPage catalog (some s) n, s < x := by
  intro x hx
  simp only [fetchPage] at hx
  rw [if_neg hs0] at hx
  exact of_decide_eq_true (List.mem_filter.mp (List.mem_of_mem_take hx)).2

theorem rrLoop_count_le_two (catalog : List Nat) (hs : catalog.Pairwise (· < ·))
    (hpos : ∀ i ∈ catalog, 0 < i) (limit : Nat) :
    ∀ (fuel : Nat) (batch : List Nat) (since : Option Nat) (wrapped : Bool)
      (b1 b2 : List Nat), batch = b1 ++ b2 → b1.Nodup → b2.Nodup →
      (∀ y ∈ b2, y ∈ catalog) → pbound b2 since → (wrapped = false → b1 = []) →
      ∀ x, (rrLoop catalog limit fuel batch since wrapped).1.count x ≤ 2 := by
  intro fuel
  induction fuel with
  | zero =>
    intro batch since wrapped b1 b2 hb h1 h2 _ _ _ x
    subst hb
    simp only [rrLoop]
    rw [List.count_append]
    have c1 := List.nodup_iff_count_le_one.mp h1 x
    have c2 := List.nodup_iff_count_le_one.mp h2 x
    omega
  | succ fuel ih =>
    intro batch since wrapped b1 b2 hb h1 h2 hsub hpb hw x
    simp only [rrLoop]
    by_cases hlt : batch.length < limit
    · rw [if_pos hlt]
      by_cases hemp :
          (fetchPage catalog since (min 250 (limit - batch.length))).isEmpty = true
      · rw [if_pos hemp]
        cases wrapped with
        | true =>
          rw [if_pos rfl]
          subst hb
          rw [List.count_append]
          have c1 := List.nodup_iff_count_le_one.mp h1 x
          have c2 := List.nodup_iff_count_le_one.mp h2 x
          omega
        | false =>
          rw [if_neg Bool.false_ne_true]
          have hb1 : b1 = [] := hw rfl
          refine ih batch none true b2 [] ?_ h2 List.nodup_nil ?_ (pbound_nil none) ?_ x
          · rw [hb, hb1, List.nil_append, List.append_nil]
          · intro y hy
            cases hy
          · intro h
            cases h
      · rw [if_neg hemp]
        have hne : fetchPage catalog since (min 250 (limit - batch.length)) ≠ [] := by
          intro h
          rw [h] at hemp
          exact hemp rfl
        obtain ⟨m, hm⟩ : ∃ m,
            (fetchPage catalog since (min 250 (limit - batch.length))).getLast? =
              some m := by
          cases hgl :
              (fetchPage catalog since (min 250 (limit - batch.length))).getLast? with
          | none => exact absurd (List.getLast?_eq_none_iff.mp hgl) hne
          | some m => exact ⟨m, rfl⟩
        rw [hm]
        have hitems_pw := fetchPage_pairwise catalog hs since
          (min 250 (limit - batch.length))
        have hitems_nd := fetchPage_nodup catalog hs since
          (min 250 (limit - batch.length))
        have hitems_sub := fetchPage_subset catalog since
          (min 250 (limit - batch.length))
        have hm_mem := mem_of_getLast?_eq hm
        have key :
            (b2 ++ fetchPage catalog since (min 250 (limit - batch.length))).Nodup ∧
            ∀ y ∈ b2 ++ fetchPage catalog since (min 250 (limit - batch.length)),
              y ≤ m := by
          have hb2nil_case : b2 = [] →
              (b2 ++ fetchPage catalog since (min 250 (limit - batch.length))).Nodup ∧
              ∀ y ∈ b2 ++ fetchPage catalog since (min 250 (limit - batch.length)),
                y ≤ m := by
            intro h
            subst h
            rw [List.nil_append]
            exact ⟨hitems_nd, fun y hy => sorted_le_getLast hitems_pw hy hm⟩
          cases since with
          | none => exact hb2nil_case hpb
          | some s =>
            by_cases hs0 : s = 0
            · refine hb2nil_case ?_
              cases hb2 : b2 with
              | nil => rfl
              | cons a t =>
                exfalso
                have ha : a ≤ s := hpb a (by rw [hb2]; exact List.mem_cons_self a t)
                have ha2 : 0 < a :=
                  hpos a (hsub a (by rw [hb2]; exact List.mem_cons_self a t))
                omega
            · have hgt := fetchPage_gt catalog hs0 (min 250 (limit - batch.length))
              have hdisj :
                  b2.Disjoint (fetchPage catalog (some s)
                    (min 250 (limit - batch.length))) := by
                intro a ha hain
                have h1' : a ≤ s := hpb a ha
                have h2' : s < a := hgt a hain
                omega
              refine ⟨h2.append hitems_nd hdisj, ?_⟩
              intro y hy
              rcases List.mem_append.mp hy with h | h
              · have hy1 : y ≤ s := hpb y h
                have hy2 : s < m := hgt m hm_mem
                omega
              · exact sorted_le_getLast hitems_pw h hm
        refine ih (batch ++ fetchPage catalog since (min 250 (limit - batch.length)))
          (some m) wrapped b1
          (b2 ++ fetchPage catalog since (min 250 (limit - batch.length)))
          ?_ h1 key.1 ?_ key.2 hw x
        · rw [hb, List.append_assoc]
        · intro y hy
          rcases List.mem_append.mp hy with h | h
          · exact hsub y h
          · exact hitems_sub y h
    · rw [if_neg hlt]
      subst hb
      rw [List.count_append]
      have c1 := List.nodup_iff_count_le_one.mp h1 x
      have c2 := List.nodup_iff_count_le_one.mp h2 x
      omega

/-- C1 counterexample: the claim says a single call never returns the same
product twice and that a 4-product catalog with `batch_size` 10 yields
exactly 4 distinct products. Starting from an empty cursor, the code fetches
all 4 products, gets an empty page, wraps (`since_id = None`) and *appends*
the refetched catalog to the same batch: the call returns 8 products, each
catalog product exactly twice. -/
theorem C1_counterexample_duplicates_in_one_call :
    (list_products_round_robin [1, 2, 3, 4] none 10).1 =
      [1, 2, 3, 4, 1, 2, 3, 4] ∧
    ¬ (list_products_round_robin [1, 2, 3, 4] none 10).1.Nodup :=
  ⟨by decide, by decide⟩

/-- C1 (amended): a single `list_products_round_robin` call wraps around at
most once, so on a static catalog of distinct (ascending, positive) product
ids no product is returned more than twice within one call. Exactly-once
coverage per cycle and within-call distinctness do **not** hold: a 4-product
catalog with `batch_size` 10 yields 8 products in one call, each product
twice (see the counterexample). -/
theorem C1_round_robin_at_most_twice_per_call (catalog : List Nat)
    (cursor : Option Nat) (limit : Nat) (hs : catalog.Pairwise (· < ·))
    (hpos : ∀ i ∈ catalog, 0 < i) (x : Nat) :
    (list_products_round_robin catalog cursor limit).1.count x ≤ 2 := by
  unfold list_products_round_robin
  by_cases h0 : limit = 0
  · rw [if_pos h0]
    show catalog.count x ≤ 2
    have hnd : catalog.Nodup := List.Pairwise.imp (fun h => Nat.ne_of_lt h) hs
    have := List.nodup_iff_count_le_one.mp hnd x
    omega
  · rw [if_neg h0]
    show ((rrLoop catalog limit (limit + 2) [] cursor false).1.take limit).count x ≤ 2
    refine le_trans (List.Sublist.count_le (List.take_sublist _ _) x) ?_
    exact rrLoop_count_le_two catalog hs hpos limit (limit + 2) [] cursor false [] []
      rfl List.nodup_nil List.nodup_nil (fun y hy => absurd hy (List.not_mem_nil y))
      (pbound_nil cursor) (fun _ => rfl) x

theorem C1_round_robin_at_most_twice_per_call_witness :
    ([1, 2, 3, 4] : List Nat).Pairwise (· < ·) ∧
    (list_products_round_robin [1, 2, 3, 4] none 10).1.count 1 ≤ 2 :=
  ⟨by decide, C1_round_robin_at_most_twice_per_call [1, 2, 3, 4] none 10
    (by decide) (by decide) 1⟩

end ShopifyAutoImport
